import Mathlib

/-!
Verification of the graph-construction core of `croo/cromwell_metadata.py`
(CromwellMetadata parser: task-DAG construction from Cromwell's metadata.json).

The Python module is shallowly embedded:
  * decoded JSON documents become the mutual inductive family `JVal` / `JArr` / `JObj`;
  * the `CMNode` namedtuple becomes the structure `CMNode`;
  * `is_parent_cmnode` (which may raise `ValueError`) returns `Except String Bool`;
  * `find_files_in_dict` becomes a mutual structural recursion over `JVal`;
  * the `calls` sub-document of the metadata becomes the mutual family
    `CallRec` / `OptCallsMap` / `CallsMap` / `CallList`, and
    `CromwellMetadata.__parse_calls` becomes `parse_calls` (raising = `Except.error`,
    the Python `for` loops over dict entries and call lists are expressed as
    structural recursion over the remaining entries);
  * the external collaborators (the `AutoURI` validator, and `WDL.parse_document`)
    are parameters: a validator `valid : String → Bool` and a parse outcome
    `Except String (List (String × String))` standing for the workflow meta section
    (`Except.error` models any exception raised by the source parser);
  * Python `str.split`, `str.startswith`, `str.strip` and the fixed regular
    expression scan are modelled character-by-character over `List Char`.
-/

/-- Decidable equality on `Except`, used to evaluate the embedded functions on
concrete inputs. -/
instance exceptDecEq {ε α : Type} [DecidableEq ε] [DecidableEq α] :
    DecidableEq (Except ε α) := fun x y =>
  match x, y with
  | .error a, .error b => decidable_of_iff (a = b) (by simp)
  | .ok a, .ok b => decidable_of_iff (a = b) (by simp)
  | .error _, .ok _ => isFalse (by simp)
  | .ok _, .error _ => isFalse (by simp)

/-! ## Decoded JSON documents -/

mutual
/-- A decoded JSON-like value: a string, an array, an object, or any other
scalar (number, bool, null), which `find_files_in_dict` never collects. -/
inductive JVal where
  | str (s : String)
  | other
  | arr (vs : JArr)
  | obj (kvs : JObj)
deriving DecidableEq

/-- A JSON array (list of values). -/
inductive JArr where
  | nil
  | cons (hd : JVal) (tl : JArr)
deriving DecidableEq

/-- A JSON object (ordered key/value pairs, as Python preserves dict order). -/
inductive JObj where
  | nil
  | cons (k : String) (v : JVal) (tl : JObj)
deriving DecidableEq
end

/-- Build a `JArr` from a Lean list, for statements and concrete documents. -/
def JArr.ofList : List JVal → JArr
  | [] => .nil
  | v :: tl => .cons v (JArr.ofList tl)

/-- Build a `JObj` from a Lean association list. -/
def JObj.ofList : List (String × JVal) → JObj
  | [] => .nil
  | kv :: tl => .cons kv.1 kv.2 (JObj.ofList tl)

/-- One entry returned by `find_files_in_dict`:
`(field_path, locator, list_index)` exactly as the Python triple. -/
abbrev FileEntry := String × String × List Int

mutual
/-- Embedding of `find_files_in_dict(d, parent, list_idx)`: recursively collect
every string `s` with `valid s` together with its dot-joined field path and its
list-index tuple (the sentinel `[-1]` when no enclosing list was seen). -/
def find_files_in_dict (valid : String → Bool) (d : JVal) (parent : List String)
    (list_idx : List Int) : List FileEntry :=
  match d with
  | .obj kvs => find_files_in_obj valid kvs parent list_idx
  | .arr vs => find_files_in_arr valid vs 0 parent list_idx
  | .str s =>
      if valid s then
        [(String.intercalate "." parent, s, if list_idx.isEmpty then [-1] else list_idx)]
      else []
  | .other => []

/-- The `isinstance(d, dict)` branch of `find_files_in_dict`: each value is
scanned with the field path extended by its key. -/
def find_files_in_obj (valid : String → Bool) (kvs : JObj) (parent : List String)
    (list_idx : List Int) : List FileEntry :=
  match kvs with
  | .nil => []
  | .cons k v tl =>
      find_files_in_dict valid v (parent ++ [k]) list_idx
        ++ find_files_in_obj valid tl parent list_idx

/-- The `isinstance(d, (list, tuple))` branch of `find_files_in_dict`:
element `i` is scanned with the list-index tuple extended by `i` and the
field path unchanged. -/
def find_files_in_arr (valid : String → Bool) (vs : JArr) (i : Int) (parent : List String)
    (list_idx : List Int) : List FileEntry :=
  match vs with
  | .nil => []
  | .cons v tl =>
      find_files_in_dict valid v parent (list_idx ++ [i])
        ++ find_files_in_arr valid tl (i + 1) parent list_idx
end

/-! ## Node model -/

/-- Embedding of the `CMNode` namedtuple, fields in source order. -/
structure CMNode where
  type : String
  shard_idx : List Int
  task_name : Option String
  output_name : Option String
  output_path : Option String
  all_outputs : Option (List FileEntry)
  all_inputs : Option (List FileEntry)
deriving DecidableEq

/-- Embedding of `is_parent_cmnode(n1, n2)`; `Except.error` models the raised
`ValueError`. -/
def is_parent_cmnode (n1 n2 : CMNode) : Except String Bool :=
  if ¬ (n1.type = "task" ∨ n1.type = "output") ∨ ¬ (n2.type = "task" ∨ n2.type = "output") then
    Except.error ("Unsupported CMNode type: " ++ n1.type ++ ".")
  else if n1.type = "task" ∧ n2.type = "output" then
    Except.ok (decide (n1.task_name = n2.task_name ∧ n1.shard_idx = n2.shard_idx))
  else if n1.type = "output" ∧ n2.type = "task" then
    match n2.all_inputs with
    | Option.none => Except.ok false
    | Option.some ins => Except.ok (ins.any (fun t => Option.some t.2.1 == n1.output_path))
  else
    Except.ok false

/-! ## Python string primitives used by the parser -/

/-- Model of Python `s.split(sep)` for a one-character separator, over the
character list: `pysplit sep "" = [""]`, and separators produce empty pieces. -/
def pysplit (sep : Char) : List Char → List (List Char)
  | [] => [[]]
  | c :: rest =>
      match pysplit sep rest with
      | h :: t => if c = sep then [] :: h :: t else (c :: h) :: t
      | [] => [[c]]

/-- Model of Python `call_name.split('.')`. -/
def split_on_dot (s : String) : List String :=
  (pysplit '.' s.data).map String.mk

/-- Model of Python `s.startswith(pre)`. -/
def py_startswith (pre s : String) : Bool :=
  pre.data.isPrefixOf s.data

/-- Truthiness of an optional string in Python: `None` and `''` are falsy.
Used by the generator `wf for wf in none_free_parent_workflows if wf`. -/
def py_truthy : Option String → Bool
  | Option.none => false
  | Option.some s => !(s == "")

/-! ## Call-tree data model -/

mutual
/-- One element of a `list_of_calls` in the metadata `calls` dict: its
`shardIndex`, the optional `subWorkflowMetadata` (only its `calls` field is
ever read), and the optional `inputs` / `outputs` sub-documents. -/
inductive CallRec where
  | mk (shardIndex : Int) (subWorkflowMetadata : OptCallsMap) (inputs : Option JVal)
      (outputs : Option JVal)
deriving DecidableEq

/-- Presence or absence of the `subWorkflowMetadata` key on a call record. -/
inductive OptCallsMap where
  | none
  | some (calls : CallsMap)
deriving DecidableEq

/-- The `calls` dict of a (sub-)workflow: ordered entries `call_name ↦ list_of_calls`. -/
inductive CallsMap where
  | nil
  | cons (call_name : String) (call_list : CallList) (tl : CallsMap)
deriving DecidableEq

/-- A `list_of_calls` value of the `calls` dict. -/
inductive CallList where
  | nil
  | cons (c : CallRec) (tl : CallList)
deriving DecidableEq
end

/-- The `shardIndex` field of a call record. -/
def CallRec.shardIndex : CallRec → Int
  | .mk s _ _ _ => s

/-- The optional `subWorkflowMetadata` (its `calls`) of a call record. -/
def CallRec.subWorkflowMetadata : CallRec → OptCallsMap
  | .mk _ sub _ _ => sub

/-- The optional `inputs` sub-document of a call record. -/
def CallRec.inputs : CallRec → Option JVal
  | .mk _ _ i _ => i

/-- The optional `outputs` sub-document of a call record. -/
def CallRec.outputs : CallRec → Option JVal
  | .mk _ _ _ o => o

/-- Embedding of the call-name handling at the top of the `for` loop of
`CromwellMetadata.__parse_calls`: split on `'.'`; two segments give the alias,
one segment is a `ScatterAt*` temporary subworkflow (no alias), anything else
raises `ValueError`. -/
def parse_call_name (call_name : String) : Except String (Option String) :=
  let split_call_name := split_on_dot call_name
  if split_call_name.length = 2 then
    Except.ok (Option.some (split_call_name.getD 1 ""))
  else if split_call_name.length = 1 then
    if py_startswith "ScatterAt" call_name then
      Except.ok Option.none
    else
      Except.error "Wrong temporary call name format for a nested subworkflow."
  else
    Except.error "Wrong call name format. Too many dots."

/-- The `full_call_name` composition: join the truthy entries of the chain
with `'.'` (Python `'.'.join(wf for wf in ... if wf)`). -/
def full_call_name_of (chain : List (Option String)) : String :=
  String.intercalate "." ((chain.filter py_truthy).map (fun o => o.getD ""))

/-- The Python idiom `tuple(files) if files else None` applied to an optional
list: a missing block and a present block with no entries both give `None`. -/
def py_tuple_or_none : Option (List FileEntry) → Option (List FileEntry)
  | Option.some (x :: xs) => Option.some (x :: xs)
  | _ => Option.none

/-- Embedding of the leaf branch of `CromwellMetadata.__parse_calls`
(no `subWorkflowMetadata` key): the task node followed by one output node per
entry found by `find_files_in_dict` in the `outputs` sub-document, in
`DAG.add_node` order. -/
def leaf_nodes (valid : String → Bool) (task_alias : Option String) (shardIndex : Int)
    (inputs outputs : Option JVal) (parent_workflows : List (Option String))
    (parent_workflow_shard_indices : List Int) : List CMNode :=
  let full_call_name := full_call_name_of (parent_workflows ++ [task_alias])
  let shard_idx := parent_workflow_shard_indices ++ [shardIndex]
  let in_files : Option (List FileEntry) :=
    inputs.map (fun j => find_files_in_dict valid j [] [])
  let out_files : Option (List FileEntry) :=
    outputs.map (fun j => find_files_in_dict valid j [] [])
  let task : CMNode :=
    CMNode.mk "task" shard_idx (Option.some full_call_name) Option.none Option.none
      (py_tuple_or_none out_files)
      (py_tuple_or_none in_files)
  task ::
    (match out_files with
      | Option.some l =>
          l.map (fun t =>
            CMNode.mk "output" shard_idx (Option.some full_call_name) (Option.some t.1)
              (Option.some t.2.1) Option.none Option.none)
      | Option.none => [])

mutual
/-- Embedding of `CromwellMetadata.__parse_calls(calls, parent_workflows,
parent_workflow_shard_indices)`. The Python `for call_name, call_list in
calls.items()` loop is expressed as structural recursion over the remaining
entries (the guard on `parent_workflows` is re-evaluated on the tail, which
does not change the result since `parent_workflows` is fixed during the loop).
Raising `ValueError` is `Except.error`; nodes are listed in `add_node` order. -/
def parse_calls (valid : String → Bool) (calls : CallsMap)
    (parent_workflows : List (Option String))
    (parent_workflow_shard_indices : List Int) : Except String (List CMNode) :=
  if parent_workflows = [] then
    Except.error
      ("parent_workflows must be defined as non-empty tuple. "
        ++ "If it is a root calling of this function "
        ++ "then call with parent_workflows=(main_workflow_name,).")
  else
    match calls with
    | .nil => Except.ok []
    | .cons call_name call_list tl =>
        match parse_call_name call_name with
        | Except.error e => Except.error e
        | Except.ok task_alias =>
            match parse_call_list valid task_alias call_list parent_workflows
                parent_workflow_shard_indices with
            | Except.error e => Except.error e
            | Except.ok ns =>
                match parse_calls valid tl parent_workflows
                    parent_workflow_shard_indices with
                | Except.error e => Except.error e
                | Except.ok ms => Except.ok (ns ++ ms)

/-- The `for c in call_list` loop of `CromwellMetadata.__parse_calls`: a call
record carrying `subWorkflowMetadata` contributes the recursive parse of that
sub-record's `calls` with the chains extended (and nothing else); a leaf call
record contributes `leaf_nodes`. -/
def parse_call_list (valid : String → Bool) (task_alias : Option String) (cl : CallList)
    (parent_workflows : List (Option String))
    (parent_workflow_shard_indices : List Int) : Except String (List CMNode) :=
  match cl with
  | .nil => Except.ok []
  | .cons (.mk shardIndex (.some sub) _ _) tl =>
      match parse_calls valid sub (parent_workflows ++ [task_alias])
          (parent_workflow_shard_indices ++ [shardIndex]) with
      | Except.error e => Except.error e
      | Except.ok ns =>
          match parse_call_list valid task_alias tl parent_workflows
              parent_workflow_shard_indices with
          | Except.error e => Except.error e
          | Except.ok ms => Except.ok (ns ++ ms)
  | .cons (.mk shardIndex .none inputs outputs) tl =>
      match parse_call_list valid task_alias tl parent_workflows
          parent_workflow_shard_indices with
      | Except.error e => Except.error e
      | Except.ok ms =>
          Except.ok
            (leaf_nodes valid task_alias shardIndex inputs outputs parent_workflows
                parent_workflow_shard_indices ++ ms)
end

/-! ## Output-definition locator -/

/-- Model of the character class `\s` of the regular expression (ASCII
whitespace, which also covers what Python `str.strip()` removes here). -/
def py_isspace (c : Char) : Bool :=
  c = ' ' ∨ c = '\t' ∨ c = '\n' ∨ c = '\r' ∨ c = '\x0b' ∨ c = '\x0c'

/-- Model of Python `s.strip()` on a character list. -/
def pystrip (l : List Char) : List Char :=
  ((l.dropWhile py_isspace).reverse.dropWhile py_isspace).reverse

/-- The fixed meta key `CromwellMetadata.WDL_WORKFLOW_META_OUT_DEF`. -/
def WDL_WORKFLOW_META_OUT_DEF : String := "croo_out_def"

/-- Matcher for the anchored regular expression
`RE_PATTERN_WDL_COMMENT_OUT_DEF_JSON` applied to one line, returning the
captured group: optional whitespace, `'#'`, optional whitespace, `CROO`,
at least one whitespace character, `out_def`, one whitespace character, then a
non-empty capture running to the end of the line. -/
def match_out_def_comment (line : List Char) : Option (List Char) :=
  match line.dropWhile py_isspace with
  | '#' :: l2 =>
      let l3 := l2.dropWhile py_isspace
      if l3.take 4 = ['C', 'R', 'O', 'O'] then
        match l3.drop 4 with
        | c :: _ =>
            if py_isspace c then
              let l5 := (l3.drop 4).dropWhile py_isspace
              if l5.take 7 = ['o', 'u', 't', '_', 'd', 'e', 'f'] then
                match l5.drop 7 with
                | c2 :: rest => if py_isspace c2 ∧ rest ≠ [] then Option.some rest else Option.none
                | [] => Option.none
              else Option.none
            else Option.none
        | [] => Option.none
      else Option.none
  | _ => Option.none

/-- The per-line loop of `CromwellMetadata.__find_val_from_wdl`: keep the
stripped first capture of each matching line when it is non-empty. -/
def find_val_lines : List String → List String
  | [] => []
  | line :: rest =>
      match match_out_def_comment line.data with
      | Option.some cap =>
          let ret := pystrip cap
          if ret.length > 0 then String.mk ret :: find_val_lines rest
          else find_val_lines rest
      | Option.none => find_val_lines rest

/-- Embedding of `CromwellMetadata.__find_val_from_wdl` for the fixed pattern
`RE_PATTERN_WDL_COMMENT_OUT_DEF_JSON`: split the WDL text on newlines and scan
line by line. -/
def find_val_from_wdl (wdl_str : String) : List String :=
  find_val_lines ((pysplit '\n' wdl_str.data).map String.mk)

/-- Embedding of `CromwellMetadata.__find_workflow_meta`. The outcome of the
external `WDL.parse_document` collaborator is a parameter `parsed_wdl`: `.ok`
carries the workflow `meta` section as an association list, `.error` stands
for any exception raised inside the `try` block, which the source absorbs into
`None`. -/
def find_workflow_meta (parsed_wdl : Except String (List (String × String)))
    (key : String) : Option String :=
  match parsed_wdl with
  | Except.error _ => Option.none
  | Except.ok meta =>
      match meta.find? (fun kv => kv.1 == key) with
      | Option.some kv => Option.some kv.2
      | Option.none => Option.none

/-- Embedding of `CromwellMetadata.__find_out_def_from_wdl`: the meta lookup
wins when it yields a value; otherwise the first comment-scan result (if any). -/
def find_out_def_from_wdl (parsed_wdl : Except String (List (String × String)))
    (wdl_str : String) : Option String :=
  match find_workflow_meta parsed_wdl WDL_WORKFLOW_META_OUT_DEF with
  | Option.some r => Option.some r
  | Option.none =>
      match find_val_from_wdl wdl_str with
      | v :: _ => Option.some v
      | [] => Option.none

/-! ## Graph builder -/

/-- The per-entry loop of `CromwellMetadata.__parse_input_json`: each file
found in the input JSON becomes an `output` node without an associated task. -/
def input_json_nodes : List FileEntry → List CMNode
  | [] => []
  | (file_name, file_path, shard_idx) :: rest =>
      CMNode.mk "output" shard_idx Option.none (Option.some file_name)
          (Option.some file_path) Option.none Option.none
        :: input_json_nodes rest

/-- Embedding of `CromwellMetadata.__parse_input_json` (the nodes it adds):
nothing when there is no input JSON, else one node per found file. -/
def parse_input_json (valid : String → Bool) (input_json : Option JVal) : List CMNode :=
  match input_json with
  | Option.none => []
  | Option.some j => input_json_nodes (find_files_in_dict valid j [] [])

/-- The `submittedFiles` block of the metadata document: the decoded `inputs`
JSON and the raw `workflow` WDL text. -/
structure SubmittedFiles where
  inputs : JVal
  workflow : String
deriving DecidableEq

/-- The fields of Cromwell's metadata document that
`CromwellMetadata.__init__` reads. -/
structure MetadataDoc where
  id : String
  workflowName : String
  calls : CallsMap
  submittedFiles : Option SubmittedFiles
deriving DecidableEq

/-- The observable state of a constructed `CromwellMetadata` object: the
workflow id, the optional output-definition reference, and the nodes added to
the DAG, in `add_node` order. -/
structure CromwellMetadataState where
  workflow_id : String
  out_def_json_file : Option String
  nodes : List CMNode
deriving DecidableEq

/-- Embedding of `CromwellMetadata.__init__`: resolve the optional
output-definition reference from `submittedFiles` (when present), then parse
`calls` seeded with `parent_workflows=(workflowName,)`, then parse the input
JSON; `Except.error` models a raised `ValueError`. -/
def cromwell_metadata_init (valid : String → Bool) (md : MetadataDoc)
    (parsed_wdl : Except String (List (String × String))) :
    Except String CromwellMetadataState :=
  let out_def : Option String :=
    match md.submittedFiles with
    | Option.some sf => find_out_def_from_wdl parsed_wdl sf.workflow
    | Option.none => Option.none
  match parse_calls valid md.calls [Option.some md.workflowName] [] with
  | Except.error e => Except.error e
  | Except.ok task_nodes =>
      Except.ok
        (CromwellMetadataState.mk md.id out_def
          (task_nodes ++ parse_input_json valid (md.submittedFiles.map SubmittedFiles.inputs)))

/-! ## Claim C1: behaviour of the predicate on same-variant pairs -/

/-- C1 counterexample: the claim says a pair of nodes of the same variant makes
`is_parent_cmnode` signal an error; on these two task nodes (and two output
nodes) it instead returns `False` without raising. -/
theorem C1_cex_same_variant_pairs_return_false :
    is_parent_cmnode
        (CMNode.mk "task" [0] (Option.some "wf.t1") Option.none Option.none Option.none Option.none)
        (CMNode.mk "task" [0] (Option.some "wf.t1") Option.none Option.none Option.none Option.none)
      = Except.ok false
  ∧ is_parent_cmnode
        (CMNode.mk "output" [0] (Option.some "wf.t1") (Option.some "o") (Option.some "p") Option.none Option.none)
        (CMNode.mk "output" [0] (Option.some "wf.t1") (Option.some "o") (Option.some "p") Option.none Option.none)
      = Except.ok false := by
  decide

/-- C1 (amended): for every pair of nodes of the same variant (two task nodes,
or two output nodes) the parent/child relation predicate returns `False`
without signalling an error; it raises only when a node's `type` is outside
the two variants. -/
theorem C1_same_variant_pairs_return_false (n1 n2 : CMNode)
    (h : (n1.type = "task" ∧ n2.type = "task") ∨ (n1.type = "output" ∧ n2.type = "output")) :
    is_parent_cmnode n1 n2 = Except.ok false := by
  rcases h with ⟨h1, h2⟩ | ⟨h1, h2⟩ <;> simp [is_parent_cmnode, h1, h2]

/-- C1 witness: the amended theorem applied to two concrete task nodes. -/
theorem C1_same_variant_pairs_return_false_witness :
    is_parent_cmnode
        (CMNode.mk "task" [2] (Option.some "wf.a") Option.none Option.none Option.none Option.none)
        (CMNode.mk "task" [3] (Option.some "wf.b") Option.none Option.none Option.none Option.none)
      = Except.ok false :=
  C1_same_variant_pairs_return_false _ _ (Or.inl ⟨rfl, rfl⟩)

/-! ## Claim C2: characterisation of the parent predicate on mixed pairs -/

/-- C2: for a task node `t` and an output node `o`, `is_parent_cmnode t o`
holds exactly when the `task_name` and `shard_idx` fields agree, and
`is_parent_cmnode o t` holds exactly when `o`'s `output_path` appears among
the locators of `t`'s declared input triples. -/
theorem C2_parent_predicate_characterisation (t o : CMNode)
    (ht : t.type = "task") (ho : o.type = "output") :
    (is_parent_cmnode t o = Except.ok true ↔
      t.task_name = o.task_name ∧ t.shard_idx = o.shard_idx)
  ∧ (is_parent_cmnode o t = Except.ok true ↔
      ∃ ins, t.all_inputs = Option.some ins ∧ ∃ p ∈ ins, Option.some p.2.1 = o.output_path) := by
  constructor
  · simp [is_parent_cmnode, ht, ho]
  · cases hin : t.all_inputs with
    | none => simp [is_parent_cmnode, ht, ho, hin]
    | some ins => simp [is_parent_cmnode, ht, ho, hin, List.any_eq_true]

/-- C2 witness: the characterisation applied to a concrete task node and a
concrete output node that do stand in the parent relation both ways. -/
theorem C2_parent_predicate_characterisation_witness :
    (is_parent_cmnode
        (CMNode.mk "task" [-1] (Option.some "wf.t1") Option.none Option.none Option.none
          (Option.some [("in1", "gs://p", [-1])]))
        (CMNode.mk "output" [-1] (Option.some "wf.t1") (Option.some "out1") (Option.some "gs://p")
          Option.none Option.none)
      = Except.ok true ↔
      (Option.some "wf.t1" : Option String) = Option.some "wf.t1" ∧ ([-1] : List Int) = [-1])
  ∧ (is_parent_cmnode
        (CMNode.mk "output" [-1] (Option.some "wf.t1") (Option.some "out1") (Option.some "gs://p")
          Option.none Option.none)
        (CMNode.mk "task" [-1] (Option.some "wf.t1") Option.none Option.none Option.none
          (Option.some [("in1", "gs://p", [-1])]))
      = Except.ok true ↔
      ∃ ins, (Option.some [("in1", "gs://p", [-1])] : Option (List FileEntry)) = Option.some ins
        ∧ ∃ p ∈ ins, Option.some p.2.1 = (Option.some "gs://p" : Option String)) :=
  C2_parent_predicate_characterisation
    (CMNode.mk "task" [-1] (Option.some "wf.t1") Option.none Option.none Option.none
      (Option.some [("in1", "gs://p", [-1])]))
    (CMNode.mk "output" [-1] (Option.some "wf.t1") (Option.some "out1") (Option.some "gs://p")
      Option.none Option.none)
    rfl rfl

/-! ## Claim C3: sub-workflow invocations recurse and add no node of their own -/

/-- C3: a call invocation record carrying `subWorkflowMetadata` contributes no
node at its own level: the parse of such a single-entry call mapping is exactly
the recursive parse of the sub-record's calls, with the ancestor chain extended
by this call's alias and the shard-index chain extended by this invocation's
shard index. -/
theorem C3_subworkflow_recursion (valid : String → Bool) (call_name : String)
    (shardIndex : Int) (sub : CallsMap) (inputs outputs : Option JVal)
    (pw : List (Option String)) (psi : List Int) (a : Option String)
    (hpw : pw ≠ []) (hname : parse_call_name call_name = Except.ok a) :
    parse_calls valid
        (.cons call_name (.cons (.mk shardIndex (.some sub) inputs outputs) .nil) .nil) pw psi
      = parse_calls valid sub (pw ++ [a]) (psi ++ [shardIndex]) := by
  cases hsub : parse_calls valid sub (pw ++ [a]) (psi ++ [shardIndex]) with
  | error e => simp [parse_calls, parse_call_list, hpw, hname, hsub]
  | ok ns => simp [parse_calls, parse_call_list, hpw, hname, hsub]

/-- C3 witness: the theorem applied to a concrete one-entry call mapping whose
single invocation holds a sub-workflow with one leaf task. -/
theorem C3_subworkflow_recursion_witness :
    ([Option.some "main"] : List (Option String)) ≠ []
  ∧ parse_call_name "main.sub1" = Except.ok (Option.some "sub1")
  ∧ parse_calls (fun _ => false)
        (.cons "main.sub1"
          (.cons
            (.mk 7
              (.some (.cons "sub1.t" (.cons (.mk (-1) .none Option.none Option.none) .nil) .nil))
              Option.none Option.none)
            .nil)
          .nil)
        [Option.some "main"] []
      = parse_calls (fun _ => false)
          (.cons "sub1.t" (.cons (.mk (-1) .none Option.none Option.none) .nil) .nil)
          ([Option.some "main"] ++ [Option.some "sub1"]) ([] ++ [7]) :=
  ⟨by decide, by decide,
    C3_subworkflow_recursion (fun _ => false) "main.sub1" 7
      (.cons "sub1.t" (.cons (.mk (-1) .none Option.none Option.none) .nil) .nil)
      Option.none Option.none [Option.some "main"] [] (Option.some "sub1")
      (by decide) (by decide)⟩

/-! ## Claim C4: leaf task invocations -/

/-- Auxiliary description of the Python truthiness filter used to compose
`full_call_name`: keeping the truthy entries and reading off their strings is
the same as dropping the absent entries and then the empty strings. -/
theorem filter_truthy_as_filterMap (l : List (Option String)) :
    (l.filter py_truthy).map (fun o => o.getD "")
      = (l.filterMap id).filter (fun s => !(s == "")) := by
  induction l with
  | nil => simp
  | cons hd tl ih =>
    cases hd with
    | none => simpa [py_truthy] using ih
    | some s => by_cases hs : s = "" <;> simp [py_truthy, hs, ih]

/-- C4 counterexample: the claim composes the task name from every non-absent
entry of (ancestor chain + alias), but the code also drops present-but-empty
entries. With ancestor chain `("wf",)` and call name `"w."` (whose alias is the
empty string), the emitted task node is named `"wf"`, not the claimed
`"wf."` = dot-join of the non-absent entries `["wf", ""]`. -/
theorem C4_cex_empty_alias_dropped_from_name :
    parse_calls (fun _ => false)
        (.cons "w." (.cons (.mk 0 .none Option.none Option.none) .nil) .nil)
        [Option.some "wf"] []
      = Except.ok
          [CMNode.mk "task" [0] (Option.some "wf") Option.none Option.none Option.none Option.none]
  ∧ parse_call_name "w." = Except.ok (Option.some "")
  ∧ String.intercalate "." ([Option.some "wf", Option.some ""].filterMap id) = "wf."
  ∧ ("wf" : String) ≠ "wf." := by
  decide

/-- C4 (amended): a leaf task invocation yields exactly one task node — named
by dot-joining the non-absent *and non-empty* entries of (ancestor chain +
alias), with shard-index sequence (ancestor shard indices + own shard index) —
followed by one output node per locator found in its `outputs`, sharing the
task's name and shard index, with `output_name` the field path and
`output_path` the locator; in particular the call identifier `"wf.taskA"` with
one invocation (`shardIndex = -1`, outputs `{"out1": "gs://P"}`) yields exactly
the task node (`"wf.taskA"`, `(-1,)`) and one output node
(`"out1"`, `"gs://P"`, `(-1,)`). -/
theorem C4_leaf_task_and_output_nodes (valid : String → Bool) (call_name : String)
    (shardIndex : Int) (inputs outputs : Option JVal) (pw : List (Option String))
    (psi : List Int) (a : Option String)
    (hpw : pw ≠ []) (hname : parse_call_name call_name = Except.ok a) :
    (∃ all_out all_in,
      parse_calls valid (.cons call_name (.cons (.mk shardIndex .none inputs outputs) .nil) .nil)
          pw psi
        = Except.ok
            (CMNode.mk "task" (psi ++ [shardIndex])
                (Option.some (String.intercalate "."
                  (((pw ++ [a]).filterMap id).filter (fun s => !(s == "")))))
                Option.none Option.none all_out all_in
              :: (match outputs with
                  | Option.some j => find_files_in_dict valid j [] []
                  | Option.none => []).map
                  (fun (t : FileEntry) =>
                    CMNode.mk "output" (psi ++ [shardIndex])
                      (Option.some (String.intercalate "."
                        (((pw ++ [a]).filterMap id).filter (fun s => !(s == "")))))
                      (Option.some t.1) (Option.some t.2.1) Option.none Option.none)))
  ∧ parse_calls (fun s => s == "gs://P")
        (.cons "wf.taskA"
          (.cons (.mk (-1) .none Option.none
            (Option.some (.obj (.cons "out1" (.str "gs://P") .nil)))) .nil)
          .nil)
        [Option.some "wf"] []
      = Except.ok
          [CMNode.mk "task" [-1] (Option.some "wf.taskA") Option.none Option.none
              (Option.some [("out1", "gs://P", [-1])]) Option.none,
           CMNode.mk "output" [-1] (Option.some "wf.taskA") (Option.some "out1")
              (Option.some "gs://P") Option.none Option.none] := by
  constructor
  · refine
      ⟨py_tuple_or_none (outputs.map (fun j => find_files_in_dict valid j [] [])),
        py_tuple_or_none (inputs.map (fun j => find_files_in_dict valid j [] [])), ?_⟩
    have hfull : full_call_name_of (pw ++ [a])
        = String.intercalate "." (((pw ++ [a]).filterMap id).filter (fun s => !(s == ""))) := by
      rw [full_call_name_of, filter_truthy_as_filterMap]
    cases outputs with
    | none => simp [parse_calls, parse_call_list, hpw, hname, leaf_nodes, hfull]
    | some j => simp [parse_calls, parse_call_list, hpw, hname, leaf_nodes, hfull]
  · decide

/-- C4 witness: the amended theorem applied to the concrete call name `"w.t"`
(with ancestor chain `("w",)`, shard index 5 and no inputs/outputs). -/
theorem C4_leaf_task_and_output_nodes_witness :
    ([Option.some "w"] : List (Option String)) ≠ []
  ∧ parse_call_name "w.t" = Except.ok (Option.some "t")
  ∧ ((∃ all_out all_in,
      parse_calls (fun _ => false)
          (.cons "w.t" (.cons (.mk 5 .none Option.none Option.none) .nil) .nil)
          [Option.some "w"] []
        = Except.ok
            (CMNode.mk "task" ([] ++ [5])
                (Option.some (String.intercalate "."
                  ((([Option.some "w"] ++ [Option.some "t"]).filterMap id).filter
                    (fun s => !(s == "")))))
                Option.none Option.none all_out all_in
              :: (match (Option.none : Option JVal) with
                  | Option.some j => find_files_in_dict (fun _ => false) j [] []
                  | Option.none => []).map
                  (fun (t : FileEntry) =>
                    CMNode.mk "output" ([] ++ [5])
                      (Option.some (String.intercalate "."
                        ((([Option.some "w"] ++ [Option.some "t"]).filterMap id).filter
                          (fun s => !(s == "")))))
                      (Option.some t.1) (Option.some t.2.1) Option.none Option.none)))
    ∧ parse_calls (fun s => s == "gs://P")
          (.cons "wf.taskA"
            (.cons (.mk (-1) .none Option.none
              (Option.some (.obj (.cons "out1" (.str "gs://P") .nil)))) .nil)
            .nil)
          [Option.some "wf"] []
        = Except.ok
            [CMNode.mk "task" [-1] (Option.some "wf.taskA") Option.none Option.none
                (Option.some [("out1", "gs://P", [-1])]) Option.none,
             CMNode.mk "output" [-1] (Option.some "wf.taskA") (Option.some "out1")
                (Option.some "gs://P") Option.none Option.none]) :=
  ⟨by decide, by decide,
    C4_leaf_task_and_output_nodes (fun _ => false) "w.t" 5 Option.none Option.none
      [Option.some "w"] [] (Option.some "t") (by decide) (by decide)⟩

/-! ## Claim C5: the resource-locator scanner -/

/-- Scanning a mapping built from an association list scans each value with
the field path extended by its key, in order. -/
theorem find_files_in_obj_ofList (valid : String → Bool) (kvs : List (String × JVal))
    (parent : List String) (li : List Int) :
    find_files_in_obj valid (JObj.ofList kvs) parent li
      = kvs.flatMap (fun kv => find_files_in_dict valid kv.2 (parent ++ [kv.1]) li) := by
  induction kvs with
  | nil => simp [JObj.ofList, find_files_in_obj]
  | cons kv tl ih => simp [JObj.ofList, find_files_in_obj, ih]

/-- Scanning a sequence built from a list starting at position `n` scans each
element with the list-index tuple extended by its position and the field path
unchanged. -/
theorem find_files_in_arr_ofList (valid : String → Bool) (vs : List JVal) (n : Nat)
    (parent : List String) (li : List Int) :
    find_files_in_arr valid (JArr.ofList vs) (n : Int) parent li
      = (vs.enumFrom n).flatMap
          (fun p => find_files_in_dict valid p.2 parent (li ++ [(p.1 : Int)])) := by
  induction vs generalizing n with
  | nil => simp [JArr.ofList, find_files_in_arr]
  | cons v tl ih =>
    have hcast : (n : Int) + 1 = ((n + 1 : Nat) : Int) := by push_cast; ring
    simp only [JArr.ofList, find_files_in_arr, List.enumFrom_cons, List.flatMap_cons, hcast,
      ih (n + 1)]

/-- C5: the scanner characterised structurally — mapping traversal extends the
dot-joined field path, sequence traversal extends the list-index tuple
(positional, from 0) and leaves the field path unchanged, a qualifying scalar
gets the accumulated indices (or the sentinel `(-1,)` outside any sequence),
an empty structure yields nothing, and the concrete example
`{"a": {"b": [L1, "not-a-locator"]}}` yields exactly `("a.b", L1, (0,))`. -/
theorem C5_scanner_characterisation (valid : String → Bool) :
    (∀ kvs parent li, find_files_in_dict valid (.obj (JObj.ofList kvs)) parent li
        = kvs.flatMap (fun kv => find_files_in_dict valid kv.2 (parent ++ [kv.1]) li))
  ∧ (∀ vs parent li, find_files_in_dict valid (.arr (JArr.ofList vs)) parent li
        = vs.enum.flatMap (fun p => find_files_in_dict valid p.2 parent (li ++ [(p.1 : Int)])))
  ∧ (∀ s parent, find_files_in_dict valid (.str s) parent []
        = if valid s then [(String.intercalate "." parent, s, [-1])] else [])
  ∧ (∀ s parent li, li ≠ [] →
      find_files_in_dict valid (.str s) parent li
        = if valid s then [(String.intercalate "." parent, s, li)] else [])
  ∧ find_files_in_dict valid (.obj .nil) [] [] = []
  ∧ find_files_in_dict (fun s => s == "L1")
      (.obj (.cons "a"
        (.obj (.cons "b"
          (.arr (.cons (.str "L1") (.cons (.str "not-a-locator") .nil))) .nil)) .nil)) [] []
      = [("a.b", "L1", [0])] := by
  refine ⟨?_, ?_, ?_, ?_, rfl, by decide⟩
  · intro kvs parent li
    simpa [find_files_in_dict] using find_files_in_obj_ofList valid kvs parent li
  · intro vs parent li
    have h := find_files_in_arr_ofList valid vs 0 parent li
    simpa [find_files_in_dict, List.enum] using h
  · intro s parent
    simp [find_files_in_dict]
  · intro s parent li hli
    cases li with
    | nil => exact absurd rfl hli
    | cons x xs => simp [find_files_in_dict]

/-- C5 witness: the scalar clause of the characterisation applied to a
qualifying string sitting at accumulated indices `(2,)`. -/
theorem C5_scanner_characterisation_witness :
    ([2] : List Int) ≠ []
  ∧ find_files_in_dict (fun s => s == "L1") (.str "L1") ["a"] [2]
      = if (fun s => s == "L1") "L1" then [(String.intercalate "." ["a"], "L1", [2])] else [] :=
  ⟨by decide,
    (C5_scanner_characterisation (fun s => s == "L1")).2.2.2.1 "L1" ["a"] [2] (by decide)⟩

/-! ## Claim C6: workflow-level input nodes -/

/-- The `__parse_input_json` loop written as a map over the scanner output. -/
theorem input_json_nodes_eq_map (files : List FileEntry) :
    input_json_nodes files
      = files.map (fun t =>
          CMNode.mk "output" t.2.2 Option.none (Option.some t.1) (Option.some t.2.1)
            Option.none Option.none) := by
  induction files with
  | nil => rfl
  | cons f tl ih =>
    obtain ⟨a, b, c⟩ := f
    simp [input_json_nodes, ih]

/-- C6 counterexample: the claim says workflow-level input nodes get an
absent/empty `shard_idx`; the code instead stores the scanner's list-index
component, which is the sentinel `(-1,)` for this input (never empty). -/
theorem C6_cex_input_node_shard_idx_not_empty :
    parse_input_json (fun s => s == "gs://a/b")
        (Option.some (.obj (.cons "x" (.str "gs://a/b") .nil)))
      = [CMNode.mk "output" [-1] Option.none (Option.some "x") (Option.some "gs://a/b")
          Option.none Option.none]
  ∧ ([-1] : List Int) ≠ ([] : List Int) := by
  decide

/-- C6 (amended): when the metadata document carries a submitted-inputs
sub-document, the graph builder emits one output node per locator the scanner
finds in it, each with no owning task (`task_name` absent) and with
`shard_idx` equal to that locator's list-index tuple (the sentinel `(-1,)`
when the locator sits outside any list) — not absent/empty. -/
theorem C6_input_json_output_nodes (valid : String → Bool) (j : JVal)
    (md : MetadataDoc) (sf : SubmittedFiles)
    (parsed_wdl : Except String (List (String × String))) (r : CromwellMetadataState)
    (hsf : md.submittedFiles = Option.some sf)
    (hok : cromwell_metadata_init valid md parsed_wdl = Except.ok r) :
    (parse_input_json valid (Option.some j)
      = (find_files_in_dict valid j [] []).map (fun t =>
          CMNode.mk "output" t.2.2 Option.none (Option.some t.1) (Option.some t.2.1)
            Option.none Option.none))
  ∧ (∀ n ∈ parse_input_json valid (Option.some j),
      n.task_name = Option.none ∧ n.type = "output")
  ∧ (∃ task_nodes,
      parse_calls valid md.calls [Option.some md.workflowName] [] = Except.ok task_nodes
      ∧ r.nodes = task_nodes
          ++ (find_files_in_dict valid sf.inputs [] []).map (fun t =>
              CMNode.mk "output" t.2.2 Option.none (Option.some t.1) (Option.some t.2.1)
                Option.none Option.none)) := by
  refine ⟨?_, ?_, ?_⟩
  · simp [parse_input_json, input_json_nodes_eq_map]
  · intro n hn
    simp only [parse_input_json, input_json_nodes_eq_map] at hn
    obtain ⟨t, _, rfl⟩ := List.mem_map.1 hn
    exact ⟨rfl, rfl⟩
  · cases hc : parse_calls valid md.calls [Option.some md.workflowName] [] with
    | error e => rw [cromwell_metadata_init, hc] at hok; cases hok
    | ok task_nodes =>
      rw [cromwell_metadata_init, hc] at hok
      cases hok
      exact ⟨task_nodes, rfl, by
        simp [hsf, parse_input_json, input_json_nodes_eq_map]⟩

/-- C6 witness: the amended theorem applied to a concrete metadata document
with an empty call mapping and one submitted input file. -/
theorem C6_input_json_output_nodes_witness :
    (MetadataDoc.mk "id-1" "wf" .nil
        (Option.some (SubmittedFiles.mk (.obj (.cons "x" (.str "gs://a/b") .nil)) ""))).submittedFiles
      = Option.some (SubmittedFiles.mk (.obj (.cons "x" (.str "gs://a/b") .nil)) "")
  ∧ cromwell_metadata_init (fun s => s == "gs://a/b")
        (MetadataDoc.mk "id-1" "wf" .nil
          (Option.some (SubmittedFiles.mk (.obj (.cons "x" (.str "gs://a/b") .nil)) "")))
        (Except.error "parse failure")
      = Except.ok
          (CromwellMetadataState.mk "id-1" Option.none
            [CMNode.mk "output" [-1] Option.none (Option.some "x") (Option.some "gs://a/b")
              Option.none Option.none])
  ∧ ((parse_input_json (fun s => s == "gs://a/b")
        (Option.some (.obj (.cons "x" (.str "gs://a/b") .nil)))
      = (find_files_in_dict (fun s => s == "gs://a/b")
          (.obj (.cons "x" (.str "gs://a/b") .nil)) [] []).map (fun t =>
            CMNode.mk "output" t.2.2 Option.none (Option.some t.1) (Option.some t.2.1)
              Option.none Option.none))
    ∧ (∀ n ∈ parse_input_json (fun s => s == "gs://a/b")
          (Option.some (.obj (.cons "x" (.str "gs://a/b") .nil))),
        n.task_name = Option.none ∧ n.type = "output")
    ∧ (∃ task_nodes,
        parse_calls (fun s => s == "gs://a/b")
            (MetadataDoc.mk "id-1" "wf" .nil
              (Option.some (SubmittedFiles.mk (.obj (.cons "x" (.str "gs://a/b") .nil)) ""))).calls
            [Option.some
              (MetadataDoc.mk "id-1" "wf" .nil
                (Option.some (SubmittedFiles.mk (.obj (.cons "x" (.str "gs://a/b") .nil)) ""))).workflowName]
            []
          = Except.ok task_nodes
        ∧ (CromwellMetadataState.mk "id-1" Option.none
            [CMNode.mk "output" [-1] Option.none (Option.some "x") (Option.some "gs://a/b")
              Option.none Option.none]).nodes
          = task_nodes
            ++ (find_files_in_dict (fun s => s == "gs://a/b")
                (SubmittedFiles.mk (.obj (.cons "x" (.str "gs://a/b") .nil)) "").inputs [] []).map
                (fun t =>
                  CMNode.mk "output" t.2.2 Option.none (Option.some t.1) (Option.some t.2.1)
                    Option.none Option.none))) :=
  ⟨rfl, by decide,
    C6_input_json_output_nodes (fun s => s == "gs://a/b")
      (.obj (.cons "x" (.str "gs://a/b") .nil))
      (MetadataDoc.mk "id-1" "wf" .nil
        (Option.some (SubmittedFiles.mk (.obj (.cons "x" (.str "gs://a/b") .nil)) "")))
      (SubmittedFiles.mk (.obj (.cons "x" (.str "gs://a/b") .nil)) "")
      (Except.error "parse failure")
      (CromwellMetadataState.mk "id-1" Option.none
        [CMNode.mk "output" [-1] Option.none (Option.some "x") (Option.some "gs://a/b")
          Option.none Option.none])
      rfl (by decide)⟩

/-! ## Claim C7: call-identifier segment counts -/

/-- A call identifier with three or more dot-segments raises the
"too many dots" `ValueError`. -/
theorem parse_call_name_of_many_segments (call_name : String)
    (h3 : 3 ≤ (split_on_dot call_name).length) :
    parse_call_name call_name = Except.error "Wrong call name format. Too many dots." := by
  have h2 : (split_on_dot call_name).length ≠ 2 := by omega
  have h1 : (split_on_dot call_name).length ≠ 1 := by omega
  simp [parse_call_name, h2, h1]

/-- A one-segment call identifier not starting with `ScatterAt` raises the
"temporary call name" `ValueError`. -/
theorem parse_call_name_of_one_segment_not_scatter (call_name : String)
    (h1 : (split_on_dot call_name).length = 1)
    (hs : py_startswith "ScatterAt" call_name = false) :
    parse_call_name call_name
      = Except.error "Wrong temporary call name format for a nested subworkflow." := by
  have h2 : (split_on_dot call_name).length ≠ 2 := by omega
  simp [parse_call_name, h2, h1, hs]

/-- C7: exactly two dot-segments, or one segment matching the `ScatterAt`
convention (which yields an absent alias), are accepted; three or more
segments always raise, and a one-segment identifier not matching the
convention always raises — also when the identifier heads a call mapping
handed to the call-tree parser. -/
theorem C7_call_identifier_segments (call_name : String) :
    (3 ≤ (split_on_dot call_name).length →
      parse_call_name call_name = Except.error "Wrong call name format. Too many dots.")
  ∧ ((split_on_dot call_name).length = 1 → py_startswith "ScatterAt" call_name = false →
      parse_call_name call_name
        = Except.error "Wrong temporary call name format for a nested subworkflow.")
  ∧ ((split_on_dot call_name).length = 2 →
      ∃ a, parse_call_name call_name = Except.ok (Option.some a))
  ∧ ((split_on_dot call_name).length = 1 → py_startswith "ScatterAt" call_name = true →
      parse_call_name call_name = Except.ok Option.none)
  ∧ (∀ (valid : String → Bool) (cl : CallList) (tl : CallsMap) (pw : List (Option String))
        (psi : List Int), pw ≠ [] → 3 ≤ (split_on_dot call_name).length →
      parse_calls valid (.cons call_name cl tl) pw psi
        = Except.error "Wrong call name format. Too many dots.")
  ∧ (∀ (valid : String → Bool) (cl : CallList) (tl : CallsMap) (pw : List (Option String))
        (psi : List Int), pw ≠ [] → (split_on_dot call_name).length = 1 →
      py_startswith "ScatterAt" call_name = false →
      parse_calls valid (.cons call_name cl tl) pw psi
        = Except.error "Wrong temporary call name format for a nested subworkflow.") := by
  refine ⟨parse_call_name_of_many_segments call_name, ?_, ?_, ?_, ?_, ?_⟩
  · exact parse_call_name_of_one_segment_not_scatter call_name
  · intro h2
    exact ⟨(split_on_dot call_name).getD 1 "", by simp [parse_call_name, h2]⟩
  · intro h1 hs
    have h2 : (split_on_dot call_name).length ≠ 2 := by omega
    simp [parse_call_name, h2, h1, hs]
  · intro valid cl tl pw psi hpw h3
    simp [parse_calls, hpw, parse_call_name_of_many_segments call_name h3]
  · intro valid cl tl pw psi hpw h1 hs
    simp [parse_calls, hpw, parse_call_name_of_one_segment_not_scatter call_name h1 hs]

/-- C7 witness: the theorem applied to the three-segment identifier
`"a.b.c"` and through the parser on a one-entry call mapping. -/
theorem C7_call_identifier_segments_witness :
    3 ≤ (split_on_dot "a.b.c").length
  ∧ parse_call_name "a.b.c" = Except.error "Wrong call name format. Too many dots."
  ∧ parse_calls (fun _ => false) (.cons "a.b.c" .nil .nil) [Option.some "wf"] []
      = Except.error "Wrong call name format. Too many dots." :=
  ⟨by decide, (C7_call_identifier_segments "a.b.c").1 (by decide),
    (C7_call_identifier_segments "a.b.c").2.2.2.2.1 (fun _ => false) .nil .nil
      [Option.some "wf"] [] (by decide) (by decide)⟩

/-! ## Claim C8: meta lookup wins over the comment scan -/

/-- C8: when the workflow meta mapping yields a value for the well-known key,
the output-definition locator returns it even when the comment scan would
also match; the comment scan is consulted exactly when the meta lookup yields
nothing, and then the first non-empty match is returned. -/
theorem C8_meta_lookup_precedence (parsed_wdl : Except String (List (String × String)))
    (wdl_str : String) (v : String)
    (hmeta : find_workflow_meta parsed_wdl WDL_WORKFLOW_META_OUT_DEF = Option.some v)
    (_hcomment : find_val_from_wdl wdl_str ≠ []) :
    find_out_def_from_wdl parsed_wdl wdl_str = Option.some v
  ∧ (∀ (q : Except String (List (String × String))) (w : String),
      find_workflow_meta q WDL_WORKFLOW_META_OUT_DEF = Option.none →
      find_out_def_from_wdl q w = (find_val_from_wdl w).head?) := by
  constructor
  · simp [find_out_def_from_wdl, hmeta]
  · intro q w h
    cases hv : find_val_from_wdl w with
    | nil => simp [find_out_def_from_wdl, h, hv]
    | cons x xs => simp [find_out_def_from_wdl, h, hv]

/-- C8 witness: the theorem applied to a meta section carrying
`croo_out_def` together with WDL text whose comment scan also matches. -/
theorem C8_meta_lookup_precedence_witness :
    find_workflow_meta (Except.ok [("croo_out_def", "gs://meta.json")])
        WDL_WORKFLOW_META_OUT_DEF
      = Option.some "gs://meta.json"
  ∧ find_val_from_wdl "# CROO out_def gs://text.json" ≠ []
  ∧ (find_out_def_from_wdl (Except.ok [("croo_out_def", "gs://meta.json")])
        "# CROO out_def gs://text.json"
      = Option.some "gs://meta.json"
    ∧ (∀ (q : Except String (List (String × String))) (w : String),
        find_workflow_meta q WDL_WORKFLOW_META_OUT_DEF = Option.none →
        find_out_def_from_wdl q w = (find_val_from_wdl w).head?)) :=
  ⟨by decide, by decide,
    C8_meta_lookup_precedence (Except.ok [("croo_out_def", "gs://meta.json")])
      "# CROO out_def gs://text.json" "gs://meta.json" (by decide) (by decide)⟩

/-! ## Claim C9: parser failures are absorbed, never propagated -/

/-- C9: a failing run of the external workflow-source parser makes the meta
lookup yield absence, the output-definition locator falls through to the
comment scan (it never errors), and the constructed graph nodes — and whether
construction succeeds at all — do not depend on the parser outcome. -/
theorem C9_wdl_parse_failure_absorbed (e : String) (key : String) (wdl_str : String)
    (valid : String → Bool) (md : MetadataDoc)
    (parsed_wdl : Except String (List (String × String))) :
    find_workflow_meta (Except.error e) key = Option.none
  ∧ find_out_def_from_wdl (Except.error e) wdl_str = (find_val_from_wdl wdl_str).head?
  ∧ (cromwell_metadata_init valid md (Except.error e)).map CromwellMetadataState.nodes
      = (cromwell_metadata_init valid md parsed_wdl).map CromwellMetadataState.nodes
  ∧ ((∃ r, cromwell_metadata_init valid md (Except.error e) = Except.ok r)
      ↔ ∃ r, cromwell_metadata_init valid md parsed_wdl = Except.ok r) := by
  refine ⟨rfl, ?_, ?_, ?_⟩
  · cases hv : find_val_from_wdl wdl_str with
    | nil => simp [find_out_def_from_wdl, find_workflow_meta, hv]
    | cons x xs => simp [find_out_def_from_wdl, find_workflow_meta, hv]
  · cases hc : parse_calls valid md.calls [Option.some md.workflowName] [] with
    | error e2 => simp [cromwell_metadata_init, hc]
    | ok ns => simp [cromwell_metadata_init, hc, Except.map]
  · cases hc : parse_calls valid md.calls [Option.some md.workflowName] [] with
    | error e2 => simp [cromwell_metadata_init, hc]
    | ok ns => simp [cromwell_metadata_init, hc]

/-! ## Claim C10: task-node input/output fields are absent or non-empty -/

/-- The `tuple(x) if x else None` collapse never produces an empty tuple. -/
theorem py_tuple_or_none_ne_some_nil (o : Option (List FileEntry)) :
    py_tuple_or_none o ≠ Option.some [] := by
  rcases o with _ | l
  · simp [py_tuple_or_none]
  · cases l <;> simp [py_tuple_or_none]

/-- Every node emitted for a leaf call invocation satisfies the task-node
field invariant: a task node's `all_inputs` / `all_outputs` are never the
empty sequence. -/
theorem leaf_nodes_task_inv (valid : String → Bool) (a : Option String) (shardIndex : Int)
    (inputs outputs : Option JVal) (pw : List (Option String)) (psi : List Int) :
    ∀ n ∈ leaf_nodes valid a shardIndex inputs outputs pw psi,
      n.type = "task" → n.all_inputs ≠ Option.some [] ∧ n.all_outputs ≠ Option.some [] := by
  intro n hn htype
  simp only [leaf_nodes] at hn
  rcases List.mem_cons.1 hn with rfl | hmem
  · exact ⟨py_tuple_or_none_ne_some_nil _, py_tuple_or_none_ne_some_nil _⟩
  · cases houtp : outputs with
    | none =>
      rw [houtp] at hmem
      simp at hmem
    | some j =>
      rw [houtp] at hmem
      simp only [Option.map_some'] at hmem
      obtain ⟨t, _, rfl⟩ := List.mem_map.1 hmem
      simp at htype

mutual
/-- Task-node field invariant, propagated through `parse_calls`. -/
theorem parse_calls_task_inv (valid : String → Bool) (calls : CallsMap)
    (pw : List (Option String)) (psi : List Int) (ns : List CMNode)
    (h : parse_calls valid calls pw psi = Except.ok ns) :
    ∀ n ∈ ns, n.type = "task" →
      n.all_inputs ≠ Option.some [] ∧ n.all_outputs ≠ Option.some [] := by
  by_cases hpw : pw = []
  · unfold parse_calls at h
    rw [if_pos hpw] at h
    simp at h
  · cases calls with
    | nil =>
      unfold parse_calls at h
      rw [if_neg hpw] at h
      injection h with h2
      subst h2
      intro n hn
      simp at hn
    | cons call_name cl tl =>
      unfold parse_calls at h
      rw [if_neg hpw] at h
      simp only [] at h
      cases hname : parse_call_name call_name with
      | error e =>
        rw [hname] at h
        simp at h
      | ok a =>
        rw [hname] at h
        simp only [] at h
        cases hcl : parse_call_list valid a cl pw psi with
        | error e =>
          rw [hcl] at h
          simp at h
        | ok ns1 =>
          rw [hcl] at h
          simp only [] at h
          cases htl : parse_calls valid tl pw psi with
          | error e =>
            rw [htl] at h
            simp at h
          | ok ns2 =>
            rw [htl] at h
            simp only [] at h
            injection h with h2
            subst h2
            intro n hn
            rcases List.mem_append.1 hn with h1 | h2
            · exact parse_call_list_task_inv valid a cl pw psi ns1 hcl n h1
            · exact parse_calls_task_inv valid tl pw psi ns2 htl n h2

/-- Task-node field invariant, propagated through a `list_of_calls`. -/
theorem parse_call_list_task_inv (valid : String → Bool) (a : Option String) (cl : CallList)
    (pw : List (Option String)) (psi : List Int) (ns : List CMNode)
    (h : parse_call_list valid a cl pw psi = Except.ok ns) :
    ∀ n ∈ ns, n.type = "task" →
      n.all_inputs ≠ Option.some [] ∧ n.all_outputs ≠ Option.some [] := by
  cases cl with
  | nil =>
    unfold parse_call_list at h
    injection h with h2
    subst h2
    intro n hn
    simp at hn
  | cons c tl =>
    obtain ⟨shardIndex, sub, inputs, outputs⟩ := c
    cases sub with
    | some subcalls =>
      unfold parse_call_list at h
      cases hsub : parse_calls valid subcalls (pw ++ [a]) (psi ++ [shardIndex]) with
      | error e =>
        rw [hsub] at h
        simp at h
      | ok ns1 =>
        rw [hsub] at h
        simp only [] at h
        cases htl : parse_call_list valid a tl pw psi with
        | error e =>
          rw [htl] at h
          simp at h
        | ok ns2 =>
          rw [htl] at h
          simp only [] at h
          injection h with h2
          subst h2
          intro n hn
          rcases List.mem_append.1 hn with h1 | h2
          · exact parse_calls_task_inv valid subcalls (pw ++ [a]) (psi ++ [shardIndex]) ns1 hsub n h1
          · exact parse_call_list_task_inv valid a tl pw psi ns2 htl n h2
    | none =>
      unfold parse_call_list at h
      cases htl : parse_call_list valid a tl pw psi with
      | error e =>
        rw [htl] at h
        simp at h
      | ok ns2 =>
        rw [htl] at h
        simp only [] at h
        injection h with h2
        subst h2
        intro n hn
        rcases List.mem_append.1 hn with h1 | h2
        · exact leaf_nodes_task_inv valid a shardIndex inputs outputs pw psi n h1
        · exact parse_call_list_task_inv valid a tl pw psi ns2 htl n h2
end

/-- C10: every task node the parser emits has `all_inputs` / `all_outputs`
either absent or a non-empty sequence — never `some []`; on a leaf invocation
a missing `inputs`/`outputs` key and a present block in which the scanner
finds nothing both produce an absent field, and a task whose `all_outputs` is
absent is followed by no output nodes. -/
theorem C10_task_node_field_invariant :
    (∀ (valid : String → Bool) (calls : CallsMap) (pw : List (Option String)) (psi : List Int)
        (ns : List CMNode), parse_calls valid calls pw psi = Except.ok ns →
      ∀ n ∈ ns, n.type = "task" →
        n.all_inputs ≠ Option.some [] ∧ n.all_outputs ≠ Option.some [])
  ∧ (∀ (valid : String → Bool) (a : Option String) (shardIndex : Int)
        (inputs outputs : Option JVal) (pw : List (Option String)) (psi : List Int),
      ∃ task outs, leaf_nodes valid a shardIndex inputs outputs pw psi = task :: outs
        ∧ task.type = "task"
        ∧ (inputs = Option.none → task.all_inputs = Option.none)
        ∧ (∀ j, inputs = Option.some j → find_files_in_dict valid j [] [] = [] →
            task.all_inputs = Option.none)
        ∧ (outputs = Option.none → task.all_outputs = Option.none)
        ∧ (∀ j, outputs = Option.some j → find_files_in_dict valid j [] [] = [] →
            task.all_outputs = Option.none)
        ∧ (task.all_outputs = Option.none → outs = [])) := by
  constructor
  · intro valid calls pw psi ns h
    exact parse_calls_task_inv valid calls pw psi ns h
  · intro valid a shardIndex inputs outputs pw psi
    refine
      ⟨CMNode.mk "task" (psi ++ [shardIndex]) (Option.some (full_call_name_of (pw ++ [a])))
          Option.none Option.none
          (py_tuple_or_none (outputs.map (fun j => find_files_in_dict valid j [] [])))
          (py_tuple_or_none (inputs.map (fun j => find_files_in_dict valid j [] []))),
        (match outputs.map (fun j => find_files_in_dict valid j [] []) with
          | Option.some l =>
              l.map (fun t =>
                CMNode.mk "output" (psi ++ [shardIndex])
                  (Option.some (full_call_name_of (pw ++ [a]))) (Option.some t.1)
                  (Option.some t.2.1) Option.none Option.none)
          | Option.none => []),
        rfl, rfl, ?_, ?_, ?_, ?_, ?_⟩
    · intro hi
      simp [hi, py_tuple_or_none]
    · intro j hj hfind
      simp [hj, hfind, py_tuple_or_none]
    · intro ho
      simp [ho, py_tuple_or_none]
    · intro j hj hfind
      simp [hj, hfind, py_tuple_or_none]
    · intro hout
      cases ho : outputs with
      | none => simp [ho]
      | some j =>
        rw [ho] at hout
        simp only [Option.map_some', py_tuple_or_none] at hout
        cases hfind : find_files_in_dict valid j [] [] with
        | nil => simp [ho, hfind]
        | cons x xs =>
          rw [hfind] at hout
          simp at hout

/-- C10 witness: the invariant applied to the parse of a concrete one-entry
call mapping whose leaf invocation has an `outputs` block with one locator. -/
theorem C10_task_node_field_invariant_witness :
    parse_calls (fun s => s == "gs://P")
        (.cons "wf.taskA"
          (.cons (.mk (-1) .none Option.none
            (Option.some (.obj (.cons "out1" (.str "gs://P") .nil)))) .nil)
          .nil)
        [Option.some "wf"] []
      = Except.ok
          [CMNode.mk "task" [-1] (Option.some "wf.taskA") Option.none Option.none
              (Option.some [("out1", "gs://P", [-1])]) Option.none,
           CMNode.mk "output" [-1] (Option.some "wf.taskA") (Option.some "out1")
              (Option.some "gs://P") Option.none Option.none]
  ∧ (∀ n ∈
      [CMNode.mk "task" [-1] (Option.some "wf.taskA") Option.none Option.none
          (Option.some [("out1", "gs://P", [-1])]) Option.none,
       CMNode.mk "output" [-1] (Option.some "wf.taskA") (Option.some "out1")
          (Option.some "gs://P") Option.none Option.none],
      n.type = "task" → n.all_inputs ≠ Option.some [] ∧ n.all_outputs ≠ Option.some []) :=
  ⟨by decide,
    C10_task_node_field_invariant.1 (fun s => s == "gs://P")
      (.cons "wf.taskA"
        (.cons (.mk (-1) .none Option.none
          (Option.some (.obj (.cons "out1" (.str "gs://P") .nil)))) .nil)
        .nil)
      [Option.some "wf"] []
      [CMNode.mk "task" [-1] (Option.some "wf.taskA") Option.none Option.none
          (Option.some [("out1", "gs://P", [-1])]) Option.none,
       CMNode.mk "output" [-1] (Option.some "wf.taskA") (Option.some "out1")
          (Option.some "gs://P") Option.none Option.none]
      (by decide)⟩
